import Mathlib

/-!
Shallow embedding of the eVTOL_Simulation repository (C++) in Lean 4.

Real-valued quantities (`double` in the source) are modelled by exact
rational arithmetic (`ℚ`); every counterexample below is evaluated at
dyadic inputs on which the C++ `double` computation is exact, so the
comparison results of the model and of the compiled program agree there.
Simulated times (`size_t` milliseconds) are modelled by `ℕ`.
The stochastic fault trial (`eVTOL::didFaultOccur`, driven by a
`std::default_random_engine`) is modelled by passing the Boolean outcome
of the trial as an explicit input to the timestep function.
-/

namespace EVTOLSim

/-- Embeds `eVTOLConfiguration` (src/evtol.h): the validated, immutable
configuration record of one vehicle prototype. -/
structure eVTOLConfiguration where
  company_name : String
  cruise_speed : ℚ
  battery_capacity : ℚ
  time_to_charge : ℚ
  energy_use_at_cruise : ℚ
  passenger_count : ℕ
  prob_fault_per_hour : ℚ
  deriving Repr, DecidableEq

/-- Embeds the validating constructor
`eVTOLConfiguration::eVTOLConfiguration(...)` (src/evtol.h lines 42-62):
each guard throws `std::invalid_argument`, modelled as `Except.error`
carrying the same message. `passenger_count` is a C++ `size_t`, so the
guard `passenger_count <= 0` rejects exactly the value `0`. -/
def mkConfiguration (company_name : String) (cruise_speed battery_capacity
    time_to_charge energy_use_at_cruise : ℚ) (passenger_count : ℕ)
    (prob_fault_per_hour : ℚ) : Except String eVTOLConfiguration :=
  if company_name = "" then .error "company_name cannot be blank."
  else if cruise_speed ≤ 0 then .error "cruise_speed must be a positive number."
  else if battery_capacity ≤ 0 then .error "battery_capacity must be a positive number."
  else if time_to_charge ≤ 0 then .error "time_to_charge must be a positive number."
  else if energy_use_at_cruise ≤ 0 then .error "energy_use_at_cruise must be a positive number."
  else if passenger_count = 0 then .error "passenger_count must be a positive number."
  else if prob_fault_per_hour < 0 ∨ prob_fault_per_hour > 1 then
    .error "prob_fault_per_hour must be in [0.0, 1.0]."
  else .ok ⟨company_name, cruise_speed, battery_capacity, time_to_charge,
    energy_use_at_cruise, passenger_count, prob_fault_per_hour⟩

/-- The conjunction of the constructor's validity guards. -/
def ConfigValid (c : eVTOLConfiguration) : Prop :=
  c.company_name ≠ "" ∧ 0 < c.cruise_speed ∧ 0 < c.battery_capacity ∧
  0 < c.time_to_charge ∧ 0 < c.energy_use_at_cruise ∧ 0 < c.passenger_count ∧
  0 ≤ c.prob_fault_per_hour ∧ c.prob_fault_per_hour ≤ 1

instance (c : eVTOLConfiguration) : Decidable (ConfigValid c) := by
  unfold ConfigValid; infer_instance

/-- Embeds `eVTOLConfiguration::chargeRate` (src/evtol.h lines 79-82):
kWh per millisecond of charging. -/
def eVTOLConfiguration.chargeRate (c : eVTOLConfiguration) : ℚ :=
  c.battery_capacity / (c.time_to_charge * 60 * 60 * 1000)

/-- Embeds `eVTOLConfiguration::energyUsePerMillisecond` (src/evtol.h
lines 85-88): kWh consumed per millisecond at cruise speed. -/
def eVTOLConfiguration.energyUsePerMillisecond (c : eVTOLConfiguration) : ℚ :=
  c.energy_use_at_cruise * c.cruise_speed / (60 * 60 * 1000)

/-- Embeds `enum class eVTOLState` (src/evtol.h lines 102-108). -/
inductive eVTOLState where
  | UNKNOWN
  | FLYING
  | CHARGING
  | WAITING
  deriving Repr, DecidableEq

/-- Embeds the mutable fields of `class eVTOL` (src/evtol.h lines
283-292).  The `charging_station_` pointer and the per-instance random
engine are not data of the vehicle model: the station interaction is
reported as an explicit admission-request flag by `timestepUpdate`, and
the random engine's draw is an explicit input. -/
structure eVTOL where
  configuration : eVTOLConfiguration
  total_flight_time : ℕ
  total_charge_time : ℕ
  total_wait_time : ℕ
  current_charge : ℚ
  number_of_faults : ℕ
  state : eVTOLState
  deriving Repr, DecidableEq

/-- Embeds the constructor `eVTOL::eVTOL(config, charging_station)`
(src/evtol.h lines 114-126): counters zeroed, battery full, state
`UNKNOWN`. -/
def mk_eVTOL (config : eVTOLConfiguration) : eVTOL :=
  { configuration := config
    total_flight_time := 0
    total_charge_time := 0
    total_wait_time := 0
    current_charge := config.battery_capacity
    number_of_faults := 0
    state := eVTOLState.UNKNOWN }

/-- Embeds the copy constructor `eVTOL::eVTOL(const eVTOL&)` (src/evtol.h
lines 128-141): every field listed there is copied verbatim; only the
random engine (absent from this model) is created fresh. -/
def copy_eVTOL (source_evtol : eVTOL) : eVTOL :=
  { configuration := source_evtol.configuration
    total_flight_time := source_evtol.total_flight_time
    total_charge_time := source_evtol.total_charge_time
    total_wait_time := source_evtol.total_wait_time
    current_charge := source_evtol.current_charge
    number_of_faults := source_evtol.number_of_faults
    state := source_evtol.state }

namespace eVTOL

/-- Embeds `eVTOL::begin` (src/evtol.h lines 143-146). -/
def begin (v : eVTOL) : eVTOL := { v with state := eVTOLState.FLYING }

/-- Embeds `eVTOL::percentChargeRemaining` (src/evtol.h lines 237-240):
charge remaining as a percent (fraction × 100) of capacity. -/
def percentChargeRemaining (v : eVTOL) : ℚ :=
  v.current_charge / v.configuration.battery_capacity * 100

/-- Embeds `eVTOL::hasFullCharge` (src/evtol.h lines 210-213): exact
equality of current charge and capacity. -/
def hasFullCharge (v : eVTOL) : Bool :=
  v.current_charge = v.configuration.battery_capacity

/-- Embeds `eVTOL::addCharge` (src/evtol.h lines 196-208): add, clamp to
capacity with `std::min`, then set state `FLYING` when exactly full and
`CHARGING` otherwise. -/
def addCharge (v : eVTOL) (charge : ℚ) : eVTOL :=
  let v1 := { v with
    current_charge := min (v.current_charge + charge) v.configuration.battery_capacity }
  if v1.hasFullCharge then { v1 with state := eVTOLState.FLYING }
  else { v1 with state := eVTOLState.CHARGING }

/-- The accumulation performed by the `FLYING` branch of
`eVTOL::timestepUpdate` (src/evtol.h lines 152-154): add the elapsed
time to `total_flight_time_`, deplete `current_charge_` by
`energyUsePerMillisecond() * (cur_time - prev_time)`, and count the
fault trial's outcome. -/
def flyingUpdate (v : eVTOL) (dt : ℕ) (fault : Bool) : eVTOL :=
  { v with
    total_flight_time := v.total_flight_time + dt
    current_charge := v.current_charge -
      v.configuration.energyUsePerMillisecond * (dt : ℚ)
    number_of_faults := v.number_of_faults + (if fault then 1 else 0) }

/-- The accumulation performed by the `CHARGING` branch of
`eVTOL::timestepUpdate` (src/evtol.h line 171). -/
def chargingUpdate (v : eVTOL) (dt : ℕ) : eVTOL :=
  { v with total_charge_time := v.total_charge_time + dt }

/-- Embeds `eVTOL::timestepUpdate` (src/evtol.h lines 148-182).
`fault` is the outcome of the `didFaultOccur` random trial.  The result
pairs the updated vehicle with the admission-request flag: `true` exactly
when the `FLYING` branch executed `charging_station_->addDevice(this)`
(the simulation always supplies a non-null station).  The `UNKNOWN`
branch throws `std::logic_error`, modelled as `none`. -/
def timestepUpdate (v : eVTOL) (prev_time cur_time : ℕ) (fault : Bool) :
    Option (eVTOL × Bool) :=
  match v.state with
  | eVTOLState.FLYING =>
    let v1 := v.flyingUpdate (cur_time - prev_time) fault
    if v1.percentChargeRemaining < 1/2 then
      some ({ v1 with state := eVTOLState.WAITING }, true)
    else
      some (v1, false)
  | eVTOLState.WAITING =>
    some ({ v with total_wait_time := v.total_wait_time + (cur_time - prev_time) }, false)
  | eVTOLState.CHARGING =>
    let v1 := v.chargingUpdate (cur_time - prev_time)
    if v1.hasFullCharge then some ({ v1 with state := eVTOLState.FLYING }, false)
    else some (v1, false)
  | eVTOLState.UNKNOWN => none

end eVTOL

/-! ## Charging station (src/charge_station.h)

The station stores raw pointers `ChargeableDevice*`.  The model names
devices by `ℕ` identifiers and keeps the pointed-to device states in a
store `ℕ → σ`; the virtual `ChargeableDevice` interface (src/sim_types.h
lines 19-30) becomes a record of the three operations over a device
state type `σ`. -/

/-- Embeds the abstract interface `class ChargeableDevice`
(src/sim_types.h lines 19-30). -/
structure ChargeableDevice (σ : Type) where
  addCharge : ℚ → σ → σ
  chargeRate : σ → ℚ
  hasFullCharge : σ → Bool

/-- `eVTOL`'s implementation of the `ChargeableDevice` interface
(src/evtol.h overrides of `addCharge`, `chargeRate`, `hasFullCharge`). -/
def eVTOLDevice : ChargeableDevice eVTOL :=
  { addCharge := fun charge v => v.addCharge charge
    chargeRate := fun v => v.configuration.chargeRate
    hasFullCharge := fun v => v.hasFullCharge }

/-- Embeds the data members of `class ChargingStation`
(src/charge_station.h lines 73-77).  `devices_waiting` is the
`std::deque` with its head as the deque's front; `devices_charging` is
the `std::vector` in `push_back` order. -/
structure ChargingStation where
  max_number_charging_devices : ℕ
  devices_waiting : List ℕ
  devices_charging : List ℕ
  deriving Repr, DecidableEq

/-- Embeds the constructor `ChargingStation(max_number_charging_devices)`
(src/charge_station.h lines 19-22): both containers start empty. -/
def mkChargingStation (max_number_charging_devices : ℕ) : ChargingStation :=
  ⟨max_number_charging_devices, [], []⟩

namespace ChargingStation

/-- Embeds `ChargingStation::addDevice` (src/charge_station.h lines
60-71): into a free bay (`push_back` on the vector) when one exists,
otherwise `push_front` on the waiting deque.  The body touches only the
two containers; it never calls any method of the device. -/
def addDevice (cs : ChargingStation) (device : ℕ) : ChargingStation :=
  if cs.devices_charging.length < cs.max_number_charging_devices then
    { cs with devices_charging := cs.devices_charging ++ [device] }
  else
    { cs with devices_waiting := device :: cs.devices_waiting }

/-- Phase (a) of `ChargingStation::timestepUpdate` (src/charge_station.h
lines 31-35): each occupied device receives
`chargeRate() * (cur_time - prev_time)` via its own `addCharge`,
in vector order. -/
def chargeAll {σ : Type} (D : ChargeableDevice σ) (dt : ℕ) :
    List ℕ → (ℕ → σ) → (ℕ → σ)
  | [], store => store
  | device :: rest, store =>
    chargeAll D dt rest
      (Function.update store device
        (D.addCharge (D.chargeRate (store device) * (dt : ℚ)) (store device)))

/-- One pass of the `std::find_if` in phase (b) of
`ChargingStation::timestepUpdate` (src/charge_station.h lines 41-44):
erase the first element satisfying `p`, or report that none does. -/
def eraseFirst (p : ℕ → Bool) : List ℕ → Option (List ℕ)
  | [] => none
  | x :: xs => if p x then some xs else (eraseFirst p xs).map (x :: ·)

/-- Phase (b) of `ChargingStation::timestepUpdate` (src/charge_station.h
lines 39-45): the `while(true)` loop erases the first fully-charged
occupant until none remains.  Each successful pass removes one element,
so fuel equal to the list length (supplied at the call site) makes the
fueled loop agree with the unbounded C++ loop. -/
def removeFullLoop (p : ℕ → Bool) : ℕ → List ℕ → List ℕ
  | 0, l => l
  | fuel + 1, l =>
    match eraseFirst p l with
    | none => l
    | some l' => removeFullLoop p fuel l'

/-- Phase (c) of `ChargingStation::timestepUpdate` (src/charge_station.h
lines 49-54): while a bay is free and the waiting deque is non-empty,
pop the deque's back (the oldest queued device) and `push_back` it into
the occupied vector.  Each iteration shortens the deque by one, so fuel
equal to the initial deque length (supplied at the call site) makes the
fueled loop agree with the C++ `while` loop. -/
def admitFromWaiting (cap : ℕ) : ℕ → List ℕ → List ℕ → List ℕ × List ℕ
  | 0, waiting, charging => (waiting, charging)
  | fuel + 1, waiting, charging =>
    if charging.length < cap then
      match waiting.getLast? with
      | some device => admitFromWaiting cap fuel waiting.dropLast (charging ++ [device])
      | none => (waiting, charging)
    else (waiting, charging)

/-- Embeds `ChargingStation::timestepUpdate` (src/charge_station.h lines
29-55): phase (a) delivers charge to every occupant, phase (b) erases
every occupant that then reports full charge, phase (c) refills free
bays from the back of the waiting deque. -/
def timestepUpdate {σ : Type} (D : ChargeableDevice σ) (cs : ChargingStation)
    (store : ℕ → σ) (prev_time cur_time : ℕ) : ChargingStation × (ℕ → σ) :=
  let dt := cur_time - prev_time
  let store1 := chargeAll D dt cs.devices_charging store
  let charging1 := removeFullLoop (fun device => D.hasFullCharge (store1 device))
    cs.devices_charging.length cs.devices_charging
  let wc := admitFromWaiting cs.max_number_charging_devices
    cs.devices_waiting.length cs.devices_waiting charging1
  ({ cs with devices_waiting := wc.1, devices_charging := wc.2 }, store1)

end ChargingStation

/-! ## Vehicle prototype factory (src/evtol_factory.h) -/

/-- Embeds `eVTOLFactory::create_eVTOL` (src/evtol_factory.h lines
27-33).  The uniform draw of the index is an explicit input: the C++
distribution is `uniform_int_distribution(0, prototypes_.size()-1)`, so
for a non-empty prototype list the drawn index lies in
`[0, size-1]` and the copy constructor duplicates `prototypes_[index]`.
For an empty list the code builds the distribution on the wrapped-around
bound `size()-1` and indexes out of bounds — undefined behaviour, never
a reported error; the model renders that case as `none`. -/
def create_eVTOL (prototypes : List eVTOL) (index : ℕ) : Option eVTOL :=
  (prototypes.get? index).map copy_eVTOL

/-! ## Fixed-timestep scheduler (src/sim_timer.h)

`SimulationEventTimer::start` busy-waits on the wall clock
(`std::chrono::system_clock::now`).  The model takes the successive
clock readings of the loop as an explicit input list (`clock`), the
first reading being the one taken before the loop; the callback
invocations are returned as the list of `(prev_time, cur_time)` argument
pairs, in firing order.  All times are integer microseconds, as in the
source (`std::chrono::microseconds` with truncating integer division). -/

/-- The `while (current_time < stop_time)` loop of
`SimulationEventTimer::start` (src/sim_timer.h lines 52-62), one step
per clock reading: when the reading is past `stop` the loop exits; when
it has reached `next_update` the callback fires with
`(update_count * T, (update_count + 1) * T)` and `next_update` advances
by `update_interval`. -/
def timerLoop (timestep_size : ℕ) (update_interval : ℕ) (stop : ℕ) :
    List ℕ → ℕ → ℕ → List (ℕ × ℕ)
  | [], _, _ => []
  | current :: rest, next_update, update_count =>
    if current < stop then
      if next_update ≤ current then
        (update_count * timestep_size, (update_count + 1) * timestep_size) ::
          timerLoop timestep_size update_interval stop rest
            (next_update + update_interval) (update_count + 1)
      else
        timerLoop timestep_size update_interval stop rest next_update update_count
    else []

/-- Embeds `SimulationEventTimer::start` (src/sim_timer.h lines 42-63):
`total_simulation_time` is `total_minutes * 60` seconds in microseconds,
`stop_time = start + total / ratio`, `update_interval =
1000µs * timestep_size / ratio` (truncating division), `next_update_time`
starts at the first clock reading, `update_count` at `0`. -/
def timerStart (timestep_size_milliseconds : ℕ)
    (total_simulation_time_minutes : ℕ) (simulation_to_real_time : ℕ)
    (clock : List ℕ) : List (ℕ × ℕ) :=
  match clock with
  | [] => []
  | start :: _ =>
    timerLoop timestep_size_milliseconds
      (1000 * timestep_size_milliseconds / simulation_to_real_time)
      (start + total_simulation_time_minutes * 60 * 1000000 / simulation_to_real_time)
      clock start 0

/-! ## Operation sequences

Reachable states of a vehicle, and of a station together with its device
store, are those produced by running an arbitrary sequence of the public
mutating operations from the freshly constructed object. -/

/-- A public mutating call on one vehicle: `begin()`,
`timestepUpdate(prev, cur)` (with the fault trial's outcome), or
`addCharge(amount)`. -/
inductive VehicleOp where
  | start
  | timestep (prev_time cur_time : ℕ) (fault : Bool)
  | addCharge (amount : ℚ)
  deriving Repr, DecidableEq

/-- Applies one `VehicleOp`; `timestepUpdate` in state `UNKNOWN` throws
(`none`), which aborts the rest of the run as the C++ exception would. -/
def applyVehicleOp (v : eVTOL) : VehicleOp → Option eVTOL
  | VehicleOp.start => some v.begin
  | VehicleOp.timestep prev cur fault => (v.timestepUpdate prev cur fault).map Prod.fst
  | VehicleOp.addCharge amount => some (v.addCharge amount)

/-- Runs a sequence of vehicle operations from a given vehicle. -/
def runVehicleFrom (v : eVTOL) : List VehicleOp → Option eVTOL
  | [] => some v
  | op :: ops => (applyVehicleOp v op).bind (runVehicleFrom · ops)

/-- Runs a sequence of vehicle operations from the freshly constructed
vehicle `mk_eVTOL config`. -/
def runVehicle (config : eVTOLConfiguration) (ops : List VehicleOp) : Option eVTOL :=
  runVehicleFrom (mk_eVTOL config) ops

/-- A public mutating call on one charging station: `addDevice(device)`
or `timestepUpdate(prev, cur)`. -/
inductive StationOp where
  | addDevice (device : ℕ)
  | timestep (prev_time cur_time : ℕ)
  deriving Repr, DecidableEq

/-- Applies one `StationOp` to the station and the device store. -/
def applyStationOp {σ : Type} (D : ChargeableDevice σ)
    (s : ChargingStation × (ℕ → σ)) : StationOp → ChargingStation × (ℕ → σ)
  | StationOp.addDevice device => (s.1.addDevice device, s.2)
  | StationOp.timestep prev cur => s.1.timestepUpdate D s.2 prev cur

/-- Runs a sequence of station operations from a given station/store. -/
def runStationFrom {σ : Type} (D : ChargeableDevice σ)
    (s : ChargingStation × (ℕ → σ)) : List StationOp → ChargingStation × (ℕ → σ)
  | [] => s
  | op :: ops => runStationFrom D (applyStationOp D s op) ops

/-- Runs a sequence of station operations from the freshly constructed
station `mkChargingStation cap` over an initial device store. -/
def runStation {σ : Type} (D : ChargeableDevice σ) (cap : ℕ) (store : ℕ → σ)
    (ops : List StationOp) : ChargingStation × (ℕ → σ) :=
  runStationFrom D (mkChargingStation cap, store) ops

/-- A device of the shape used by `test_ChargingStation`
(src/charge_station.h lines 85-93): state is the accumulated charge,
`chargeRate` is `1`, `hasFullCharge` is `total_charge >= 3`. -/
def MockDevice : ChargeableDevice ℚ :=
  { addCharge := fun charge total => total + charge
    chargeRate := fun _ => 1
    hasFullCharge := fun total => 3 ≤ total }

/-! ## Unfolding equations of `eVTOL.timestepUpdate` -/

namespace eVTOL

/-- Unfolding equation of `timestepUpdate` in state `UNKNOWN`. -/
theorem timestepUpdate_unknown (v : eVTOL) (p c : ℕ) (f : Bool)
    (h : v.state = eVTOLState.UNKNOWN) : v.timestepUpdate p c f = none := by
  unfold timestepUpdate
  rw [h]

/-- Unfolding equation of `timestepUpdate` in state `FLYING`. -/
theorem timestepUpdate_flying (v : eVTOL) (p c : ℕ) (f : Bool)
    (h : v.state = eVTOLState.FLYING) :
    v.timestepUpdate p c f =
      if (v.flyingUpdate (c - p) f).percentChargeRemaining < 1/2 then
        some ({ v.flyingUpdate (c - p) f with state := eVTOLState.WAITING }, true)
      else
        some (v.flyingUpdate (c - p) f, false) := by
  unfold timestepUpdate
  rw [h]

/-- Unfolding equation of `timestepUpdate` in state `WAITING`. -/
theorem timestepUpdate_waiting (v : eVTOL) (p c : ℕ) (f : Bool)
    (h : v.state = eVTOLState.WAITING) :
    v.timestepUpdate p c f =
      some ({ v with total_wait_time := v.total_wait_time + (c - p) }, false) := by
  unfold timestepUpdate
  rw [h]

/-- Unfolding equation of `timestepUpdate` in state `CHARGING`. -/
theorem timestepUpdate_charging (v : eVTOL) (p c : ℕ) (f : Bool)
    (h : v.state = eVTOLState.CHARGING) :
    v.timestepUpdate p c f =
      if (v.chargingUpdate (c - p)).hasFullCharge then
        some ({ v.chargingUpdate (c - p) with state := eVTOLState.FLYING }, false)
      else
        some (v.chargingUpdate (c - p), false) := by
  unfold timestepUpdate
  rw [h]

end eVTOL

/-! ## Helper lemmas about the station loops -/

namespace ChargingStation

theorem eraseFirst_eq_none {p : ℕ → Bool} :
    ∀ {l : List ℕ}, eraseFirst p l = none ↔ ∀ x ∈ l, p x = false := by
  intro l
  induction l with
  | nil => simp [eraseFirst]
  | cons x xs ih =>
    by_cases hx : p x <;> simp [eraseFirst, hx, ih]

theorem eraseFirst_eq_some {p : ℕ → Bool} :
    ∀ {l l' : List ℕ}, eraseFirst p l = some l' →
      l.countP p = l'.countP p + 1 ∧
      l.filter (fun x => !p x) = l'.filter (fun x => !p x) := by
  intro l
  induction l with
  | nil => intro l' h; exact Option.noConfusion h
  | cons x xs ih =>
    intro l' h
    by_cases hx : p x
    · simp only [eraseFirst, hx, if_pos] at h
      cases h
      constructor
      · simp [List.countP_cons, hx]
      · simp [List.filter_cons, hx]
    · simp only [eraseFirst, hx] at h
      cases hrec : eraseFirst p xs with
      | none => rw [hrec] at h; simp at h
      | some xs' =>
        rw [hrec] at h
        obtain rfl : x :: xs' = l' := Option.some_inj.mp h
        obtain ⟨h1, h2⟩ := ih hrec
        constructor
        · simp [List.countP_cons, hx, h1]
        · simp [List.filter_cons, hx, h2]

theorem removeFullLoop_eq_filter {p : ℕ → Bool} :
    ∀ (fuel : ℕ) (l : List ℕ), l.countP p ≤ fuel →
      removeFullLoop p fuel l = l.filter (fun x => !p x) := by
  intro fuel
  induction fuel with
  | zero =>
    intro l h
    have hall : ∀ x ∈ l, p x = false := by
      intro x hx
      by_contra hpx
      have : 0 < l.countP p := List.countP_pos_iff.mpr ⟨x, hx, by simpa using hpx⟩
      omega
    rw [removeFullLoop, List.filter_eq_self.mpr (by intro x hx; simp [hall x hx])]
  | succ fuel ih =>
    intro l h
    cases hrec : eraseFirst p l with
    | none =>
      have hall := eraseFirst_eq_none.mp hrec
      rw [removeFullLoop, hrec]
      exact (List.filter_eq_self.mpr (by intro x hx; simp [hall x hx])).symm
    | some l' =>
      obtain ⟨h1, h2⟩ := eraseFirst_eq_some hrec
      rw [removeFullLoop, hrec]
      exact (ih l' (by omega)).trans h2.symm

theorem admitFromWaiting_eq (cap : ℕ) :
    ∀ (fuel : ℕ) (w c : List ℕ),
      admitFromWaiting cap fuel w c =
        (w.take (w.length - min (min fuel (cap - c.length)) w.length),
         c ++ (w.drop (w.length - min (min fuel (cap - c.length)) w.length)).reverse) := by
  intro fuel
  induction fuel with
  | zero => intro w c; simp [admitFromWaiting]
  | succ fuel ih =>
    intro w c
    rw [admitFromWaiting]
    by_cases hc : c.length < cap
    · rw [if_pos hc]
      cases hw : w.getLast? with
      | none =>
        have hwnil : w = [] := List.getLast?_eq_none_iff.mp hw
        subst hwnil
        simp
      | some d =>
        have hwne : w ≠ [] := by rintro rfl; simp at hw
        change admitFromWaiting cap fuel w.dropLast (c ++ [d]) = _
        rw [ih]
        have hn : 1 ≤ w.length := List.length_pos.mpr hwne
        have hdl : w.dropLast.length = w.length - 1 := by
          simp [List.length_dropLast]
        set n := w.length with hndef
        set k := min (min (fuel + 1) (cap - c.length)) n with hkdef
        have hk1 : 1 ≤ k := by omega
        have hkn : k ≤ n := by omega
        have hk' : min (min fuel (cap - (c ++ [d]).length)) w.dropLast.length = k - 1 := by
          simp only [List.length_append, List.length_cons, List.length_nil, hdl]
          omega
        rw [hk']
        have hidx : w.dropLast.length - (k - 1) = n - k := by omega
        rw [hidx]
        have hw_split : w.dropLast ++ [d] = w := by
          have hlast : w.getLast hwne = d := by
            have h2 := List.getLast?_eq_getLast w hwne
            rw [h2] at hw
            exact Option.some_inj.mp hw
          rw [← hlast]
          exact List.dropLast_append_getLast hwne
        rw [Prod.mk.injEq]
        refine ⟨?_, ?_⟩
        · -- take component
          have : w.dropLast.take (n - k) = w.take (n - k) := by
            rw [List.dropLast_eq_take, List.take_take]
            congr 1
            omega
          rw [this]
        · -- drop component
          have hdrop : w.drop (n - k) = w.dropLast.drop (n - k) ++ [d] := by
            conv_lhs => rw [← hw_split]
            rw [List.drop_append_of_le_length (by omega)]
          rw [hdrop]
          simp [List.append_assoc]
    · rw [if_neg hc]
      have : min (min (fuel + 1) (cap - c.length)) w.length = 0 := by omega
      simp [this]

theorem chargeAll_not_mem {σ : Type} (D : ChargeableDevice σ) (dt : ℕ) :
    ∀ (l : List ℕ) (store : ℕ → σ) (d : ℕ), d ∉ l →
      chargeAll D dt l store d = store d := by
  intro l
  induction l with
  | nil => intro store d _; rfl
  | cons x xs ih =>
    intro store d hd
    rw [chargeAll, ih _ _ (by intro h; exact hd (List.mem_cons_of_mem x h)),
      Function.update_noteq (by intro h; exact hd (h ▸ List.mem_cons_self x xs))]

theorem chargeAll_mem {σ : Type} (D : ChargeableDevice σ) (dt : ℕ) :
    ∀ (l : List ℕ) (store : ℕ → σ) (d : ℕ), l.Nodup → d ∈ l →
      chargeAll D dt l store d =
        D.addCharge (D.chargeRate (store d) * (dt : ℚ)) (store d) := by
  intro l
  induction l with
  | nil => intro store d _ hd; simp at hd
  | cons x xs ih =>
    intro store d hnd hd
    obtain ⟨hx, hxs⟩ := List.nodup_cons.mp hnd
    rw [chargeAll]
    rcases List.mem_cons.mp hd with rfl | hdxs
    · rw [chargeAll_not_mem D dt xs _ d hx, Function.update_same]
    · have hne : d ≠ x := by rintro rfl; exact hx hdxs
      rw [ih _ _ hxs hdxs, Function.update_noteq hne]

end ChargingStation

/-! ## Vehicle-level helper lemmas -/

theorem energyUsePerMillisecond_nonneg {c : eVTOLConfiguration}
    (h : ConfigValid c) : 0 ≤ c.energyUsePerMillisecond := by
  obtain ⟨-, hspeed, -, -, henergy, -, -, -⟩ := h
  unfold eVTOLConfiguration.energyUsePerMillisecond
  positivity

/-- Every single public vehicle operation preserves the configuration and
keeps the charge at or below capacity. -/
theorem applyVehicleOp_preserves (v v' : eVTOL) (op : VehicleOp)
    (henergy : 0 ≤ v.configuration.energyUsePerMillisecond)
    (hle : v.current_charge ≤ v.configuration.battery_capacity)
    (h : applyVehicleOp v op = some v') :
    v'.configuration = v.configuration ∧
      v'.current_charge ≤ v.configuration.battery_capacity := by
  cases op with
  | start =>
    obtain rfl := Option.some_inj.mp h
    exact ⟨rfl, hle⟩
  | timestep prev cur fault =>
    replace h : (v.timestepUpdate prev cur fault).map Prod.fst = some v' := h
    have hchg : (v.flyingUpdate (cur - prev) fault).current_charge ≤
        v.configuration.battery_capacity := by
      have hmul : 0 ≤ v.configuration.energyUsePerMillisecond * ((cur - prev : ℕ) : ℚ) :=
        mul_nonneg henergy (by positivity)
      show v.current_charge - v.configuration.energyUsePerMillisecond *
        ((cur - prev : ℕ) : ℚ) ≤ v.configuration.battery_capacity
      linarith
    cases hstate : v.state with
    | UNKNOWN =>
      rw [eVTOL.timestepUpdate_unknown v prev cur fault hstate] at h
      exact Option.noConfusion h
    | FLYING =>
      rw [eVTOL.timestepUpdate_flying v prev cur fault hstate] at h
      by_cases hthr : (v.flyingUpdate (cur - prev) fault).percentChargeRemaining < 1/2
      · rw [if_pos hthr] at h
        obtain rfl := Option.some_inj.mp h
        exact ⟨rfl, hchg⟩
      · rw [if_neg hthr] at h
        obtain rfl := Option.some_inj.mp h
        exact ⟨rfl, hchg⟩
    | WAITING =>
      rw [eVTOL.timestepUpdate_waiting v prev cur fault hstate] at h
      obtain rfl := Option.some_inj.mp h
      exact ⟨rfl, hle⟩
    | CHARGING =>
      rw [eVTOL.timestepUpdate_charging v prev cur fault hstate] at h
      by_cases hfull : (v.chargingUpdate (cur - prev)).hasFullCharge
      · rw [if_pos hfull] at h
        obtain rfl := Option.some_inj.mp h
        exact ⟨rfl, hle⟩
      · rw [if_neg hfull] at h
        obtain rfl := Option.some_inj.mp h
        exact ⟨rfl, hle⟩
  | addCharge amount =>
    obtain rfl := Option.some_inj.mp h
    unfold eVTOL.addCharge
    set v1 : eVTOL := { v with
      current_charge := min (v.current_charge + amount) v.configuration.battery_capacity }
      with hv1
    by_cases hfull : v1.hasFullCharge
    · rw [if_pos hfull]
      exact ⟨rfl, min_le_right _ _⟩
    · rw [if_neg hfull]
      exact ⟨rfl, min_le_right _ _⟩

theorem runVehicleFrom_charge_le (config : eVTOLConfiguration)
    (henergy : 0 ≤ config.energyUsePerMillisecond) :
    ∀ (ops : List VehicleOp) (v v' : eVTOL), v.configuration = config →
      v.current_charge ≤ config.battery_capacity →
      runVehicleFrom v ops = some v' →
      v'.configuration = config ∧
        v'.current_charge ≤ config.battery_capacity := by
  intro ops
  induction ops with
  | nil =>
    intro v v' hcfg hle hrun
    obtain rfl := Option.some_inj.mp hrun
    exact ⟨hcfg, hle⟩
  | cons op ops ih =>
    intro v v' hcfg hle hrun
    rw [runVehicleFrom] at hrun
    cases happ : applyVehicleOp v op with
    | none => rw [happ] at hrun; exact Option.noConfusion hrun
    | some v1 =>
      rw [happ] at hrun
      have hstep := applyVehicleOp_preserves v v1 op (by rw [hcfg]; exact henergy)
        (by rw [hcfg]; exact hle) happ
      exact ih v1 v' (hstep.1.trans hcfg) (by rw [← hcfg]; exact hstep.2) hrun

/-! ## Claim theorems -/

/-- C1 (counterexample): the claim's threshold is wrong on the code.  The
source compares `percentChargeRemaining()` — charge *percent*, i.e.
fraction × 100 — against the literal `0.5` (src/evtol.h line 156), so a
Flying vehicle whose remaining-charge fraction is `40/128 = 0.3125`
(percent `31.25`, far below the claim's `0.5` fraction threshold but
above `0.5` percent) stays `FLYING` and never contacts the station,
where the claim demands `WAITING` with an admission request on that
tick.  All arithmetic involved is exact in `double`. -/
theorem flying_threshold_counterexample :
    (((mk_eVTOL ⟨"Alpha", 3600000, 128, 1, 1, 1, 0⟩).begin.timestepUpdate 0 88 false).map
        (fun r => (r.1.state, r.1.current_charge, r.2)))
      = some (eVTOLState.FLYING, 40, false)
    ∧ ((40 : ℚ) / 128 < 1/2)
    ∧ ConfigValid ⟨"Alpha", 3600000, 128, 1, 1, 1, 0⟩ := by
  refine ⟨?_, by norm_num, by decide⟩
  norm_num [mk_eVTOL, eVTOL.begin, eVTOL.timestepUpdate, eVTOL.flyingUpdate,
    eVTOL.percentChargeRemaining, eVTOLConfiguration.energyUsePerMillisecond]

/-- C1 (amended): for a Flying vehicle, `timestepUpdate(prev, cur)`
depletes `currentCharge` by `energyUsePerMillisecond × (cur − prev)` and
transitions to `WAITING`, requesting admission at the charging station on
that same tick, exactly when `percentChargeRemaining` — the remaining
fraction × 100 — has dropped below `0.5`, i.e. when the remaining-charge
fraction is below `1/200 = 0.005`; at or above that threshold it remains
`FLYING` and does not contact the station. -/
theorem timestepUpdate_flying_spec (v : eVTOL) (prev_time cur_time : ℕ)
    (fault : Bool) (hstate : v.state = eVTOLState.FLYING)
    (hcap : 0 < v.configuration.battery_capacity) :
    ∃ v' req, v.timestepUpdate prev_time cur_time fault = some (v', req)
      ∧ v'.current_charge = v.current_charge -
          v.configuration.energyUsePerMillisecond * ((cur_time - prev_time : ℕ) : ℚ)
      ∧ v'.total_flight_time = v.total_flight_time + (cur_time - prev_time)
      ∧ v'.configuration = v.configuration
      ∧ (v'.current_charge / v.configuration.battery_capacity < 1/200 →
          v'.state = eVTOLState.WAITING ∧ req = true)
      ∧ (1/200 ≤ v'.current_charge / v.configuration.battery_capacity →
          v'.state = eVTOLState.FLYING ∧ req = false) := by
  rw [eVTOL.timestepUpdate_flying v prev_time cur_time fault hstate]
  have hpct : (v.flyingUpdate (cur_time - prev_time) fault).percentChargeRemaining =
      (v.flyingUpdate (cur_time - prev_time) fault).current_charge /
        v.configuration.battery_capacity * 100 := rfl
  by_cases hthr : (v.flyingUpdate (cur_time - prev_time) fault).percentChargeRemaining < 1/2
  · rw [if_pos hthr]
    refine ⟨_, true, rfl, rfl, rfl, rfl, fun _ => ⟨rfl, rfl⟩, fun hge => absurd hthr ?_⟩
    rw [hpct, not_lt]
    have hge' : 1/200 ≤ (v.flyingUpdate (cur_time - prev_time) fault).current_charge /
        v.configuration.battery_capacity := hge
    linarith
  · rw [if_neg hthr]
    refine ⟨_, false, rfl, rfl, rfl, rfl, fun hlt => absurd hthr ?_, fun _ => ⟨hstate, rfl⟩⟩
    rw [not_not, hpct]
    have hlt' : (v.flyingUpdate (cur_time - prev_time) fault).current_charge /
        v.configuration.battery_capacity < 1/200 := hlt
    linarith

/-- Witness for `timestepUpdate_flying_spec` at a concrete Flying
vehicle: a tick of 100 ms at 1 kWh/ms drains the 128 kWh battery to
28 kWh, fraction `28/128 ≥ 1/200`, so it stays Flying. -/
theorem timestepUpdate_flying_spec_witness :
    ∃ v' req, (mk_eVTOL ⟨"Alpha", 3600000, 128, 1, 1, 1, 0⟩).begin.timestepUpdate
        0 100 false = some (v', req)
      ∧ v'.current_charge = (mk_eVTOL ⟨"Alpha", 3600000, 128, 1, 1, 1, 0⟩).begin.current_charge -
          (⟨"Alpha", 3600000, 128, 1, 1, 1, 0⟩ : eVTOLConfiguration).energyUsePerMillisecond *
            ((100 - 0 : ℕ) : ℚ)
      ∧ v'.total_flight_time =
          (mk_eVTOL ⟨"Alpha", 3600000, 128, 1, 1, 1, 0⟩).begin.total_flight_time + (100 - 0)
      ∧ v'.configuration = (⟨"Alpha", 3600000, 128, 1, 1, 1, 0⟩ : eVTOLConfiguration)
      ∧ (v'.current_charge / (128 : ℚ) < 1/200 →
          v'.state = eVTOLState.WAITING ∧ req = true)
      ∧ ((1:ℚ)/200 ≤ v'.current_charge / 128 →
          v'.state = eVTOLState.FLYING ∧ req = false) :=
  timestepUpdate_flying_spec (mk_eVTOL ⟨"Alpha", 3600000, 128, 1, 1, 1, 0⟩).begin
    0 100 false (by decide) (by norm_num [mk_eVTOL, eVTOL.begin])

/-- C2: `addCharge(amount)` sets `currentCharge` to
`min(currentCharge + amount, batteryCapacity)`; the state becomes
`FLYING` exactly when the clamped value equals the capacity and
`CHARGING` otherwise, irrespective of the previous state — in particular
a `WAITING` vehicle filled by its first increment goes straight to
`FLYING` (src/evtol.h lines 196-208). -/
theorem addCharge_spec (v : eVTOL) (amount : ℚ)
    (hle : v.current_charge ≤ v.configuration.battery_capacity)
    (hamt : 0 ≤ amount) :
    (v.addCharge amount).current_charge =
        min (v.current_charge + amount) v.configuration.battery_capacity
      ∧ ((v.addCharge amount).current_charge = v.configuration.battery_capacity →
          (v.addCharge amount).state = eVTOLState.FLYING)
      ∧ ((v.addCharge amount).current_charge ≠ v.configuration.battery_capacity →
          (v.addCharge amount).state = eVTOLState.CHARGING) := by
  unfold eVTOL.addCharge
  set v1 : eVTOL := { v with
    current_charge := min (v.current_charge + amount) v.configuration.battery_capacity }
    with hv1
  by_cases hfull : v1.hasFullCharge
  · rw [if_pos hfull]
    have heq : min (v.current_charge + amount) v.configuration.battery_capacity =
        v.configuration.battery_capacity := of_decide_eq_true hfull
    exact ⟨rfl, fun _ => rfl, fun hne => absurd heq hne⟩
  · rw [if_neg hfull]
    have hne : min (v.current_charge + amount) v.configuration.battery_capacity ≠
        v.configuration.battery_capacity := fun heq => hfull (decide_eq_true heq)
    exact ⟨rfl, fun heq => absurd heq hne, fun _ => rfl⟩

/-- Witness for `addCharge_spec`: a `WAITING` vehicle at 300 of 320 kWh
whose first increment of 20 kWh exactly fills it goes directly to
`FLYING`, never through `CHARGING`. -/
theorem addCharge_spec_witness :
    ((⟨⟨"Alpha", 120, 320, 3/5, 8/5, 4, 1/4⟩, 0, 0, 0, 300, 0,
        eVTOLState.WAITING⟩ : eVTOL).addCharge 20).current_charge
      = min ((300 : ℚ) + 20) 320
    ∧ ((⟨⟨"Alpha", 120, 320, 3/5, 8/5, 4, 1/4⟩, 0, 0, 0, 300, 0,
        eVTOLState.WAITING⟩ : eVTOL).addCharge 20).state = eVTOLState.FLYING := by
  have h := addCharge_spec (⟨⟨"Alpha", 120, 320, 3/5, 8/5, 4, 1/4⟩, 0, 0, 0, 300, 0,
    eVTOLState.WAITING⟩ : eVTOL) 20 (by norm_num) (by norm_num)
  refine ⟨h.1, h.2.1 ?_⟩
  rw [h.1]
  norm_num

/-- C5 (counterexample): the lower half of the invariant fails on the
code.  `timestepUpdate` subtracts the full tick's consumption with no
clamp at zero (src/evtol.h line 153): from a valid configuration with a
fresh 128 kWh battery and consumption 1 kWh/ms, one 200 ms Flying tick
leaves `currentCharge = −72 < 0`. -/
theorem charge_invariant_counterexample :
    (runVehicle ⟨"Alpha", 3600000, 128, 1, 1, 1, 0⟩
        [VehicleOp.start, VehicleOp.timestep 0 200 false]).map eVTOL.current_charge
      = some (-72)
    ∧ ((-72 : ℚ) < 0)
    ∧ ConfigValid ⟨"Alpha", 3600000, 128, 1, 1, 1, 0⟩ := by
  refine ⟨?_, by norm_num, by decide⟩
  norm_num [runVehicle, runVehicleFrom, applyVehicleOp, mk_eVTOL, eVTOL.begin,
    eVTOL.timestepUpdate, eVTOL.flyingUpdate, eVTOL.percentChargeRemaining,
    eVTOLConfiguration.energyUsePerMillisecond, Option.bind]

/-- C5 (amended): for every valid configuration and every operation
sequence from construction, `currentCharge ≤ batteryCapacity` holds
after every operation; the lower bound `0 ≤ currentCharge` is not
maintained, because a Flying tick's depletion is not clamped (see
`charge_invariant_counterexample`). -/
theorem current_charge_le_capacity (config : eVTOLConfiguration)
    (hvalid : ConfigValid config) (ops : List VehicleOp) (v' : eVTOL)
    (hrun : runVehicle config ops = some v') :
    v'.current_charge ≤ v'.configuration.battery_capacity := by
  have h := runVehicleFrom_charge_le config (energyUsePerMillisecond_nonneg hvalid)
    ops (mk_eVTOL config) v' rfl (le_refl _) hrun
  rw [h.1]
  exact h.2

/-- Witness for `current_charge_le_capacity`: a fresh Alpha-type vehicle
after `begin` and one 88 ms Flying tick ends at 40 of 128 kWh. -/
theorem current_charge_le_capacity_witness :
    (⟨⟨"Alpha", 3600000, 128, 1, 1, 1, 0⟩, 88, 0, 0, 40, 0,
        eVTOLState.FLYING⟩ : eVTOL).current_charge ≤
      (⟨⟨"Alpha", 3600000, 128, 1, 1, 1, 0⟩, 88, 0, 0, 40, 0,
        eVTOLState.FLYING⟩ : eVTOL).configuration.battery_capacity := by
  apply current_charge_le_capacity ⟨"Alpha", 3600000, 128, 1, 1, 1, 0⟩ (by decide)
    [VehicleOp.start, VehicleOp.timestep 0 88 false]
  norm_num [runVehicle, runVehicleFrom, applyVehicleOp, mk_eVTOL, eVTOL.begin,
    eVTOL.timestepUpdate, eVTOL.flyingUpdate, eVTOL.percentChargeRemaining,
    eVTOLConfiguration.energyUsePerMillisecond, Option.bind]

/-- C3: admission places a device directly into a free bay (at the back
of the occupied vector) and otherwise pushes it onto the *front* of the
waiting deque, while a freed bay is refilled from the *back* (the oldest
queued device).  Concretely, with capacity 2 and devices A=0, B=1, C=2,
D=3 admitted in order: occupied = [A, B], waiting = [D, C] with front D;
and on the tick in which A finishes charging (charge 2 of 3, rate 1/ms,
mock device of `test_ChargingStation`), C is admitted while D keeps
waiting. -/
theorem station_admission_policy :
    (∀ (cs : ChargingStation) (d : ℕ),
      (cs.devices_charging.length < cs.max_number_charging_devices →
        cs.addDevice d = { cs with devices_charging := cs.devices_charging ++ [d] })
      ∧ (¬ cs.devices_charging.length < cs.max_number_charging_devices →
        cs.addDevice d = { cs with devices_waiting := d :: cs.devices_waiting }))
    ∧ ((((mkChargingStation 2).addDevice 0).addDevice 1).addDevice 2).addDevice 3
        = ⟨2, [3, 2], [0, 1]⟩
    ∧ (ChargingStation.timestepUpdate MockDevice ⟨2, [3, 2], [0, 1]⟩
        (fun n => if n = 0 then 2 else 0) 0 1).1 = ⟨2, [3], [1, 2]⟩ := by
  refine ⟨fun cs d => ⟨fun h => ?_, fun h => ?_⟩, ?_, ?_⟩
  · rw [ChargingStation.addDevice, if_pos h]
  · rw [ChargingStation.addDevice, if_neg h]
  · norm_num [mkChargingStation, ChargingStation.addDevice]
  · norm_num [ChargingStation.timestepUpdate, ChargingStation.chargeAll,
      ChargingStation.removeFullLoop, ChargingStation.eraseFirst,
      ChargingStation.admitFromWaiting, MockDevice, Function.update]

/-- C4 (counterexample): the claim's parenthetical "no fully-charged
device remaining in occupied after the tick" fails on the code: phase
(c) admits devices from the waiting queue *after* the full-charge sweep
of phase (b) and without rechecking fullness, so a device that is
already full while waiting (mock device with accumulated charge 3)
finishes the tick inside occupied while reporting full charge.
Capacity 1; occupied = [0] with charge 2 (full at 3 after +1), waiting
= [1] with charge 3 (already full). -/
theorem stationTick_full_occupant_counterexample :
    (ChargingStation.timestepUpdate MockDevice ⟨1, [1], [0]⟩
        (fun n => if n = 0 then 2 else 3) 0 1).1.devices_charging = [1]
    ∧ MockDevice.hasFullCharge ((ChargingStation.timestepUpdate MockDevice ⟨1, [1], [0]⟩
        (fun n => if n = 0 then 2 else 3) 0 1).2 1) = true := by
  constructor <;>
    norm_num [ChargingStation.timestepUpdate, ChargingStation.chargeAll,
      ChargingStation.removeFullLoop, ChargingStation.eraseFirst,
      ChargingStation.admitFromWaiting, MockDevice, Function.update]

/-- C4 (amended): `timestepUpdate(prev, cur)` performs, in this order:
(a) every occupied device receives `chargeRate × (cur − prev)` through
its own `addCharge`; (b) every occupied device that then reports full
charge is removed, completely — the surviving occupied prefix contains
no full device; (c) while a bay is free and the waiting queue is
non-empty, the device at the *back* of the waiting queue moves into
occupied.  A device admitted in phase (c) is not re-checked, so it may
itself be full (see the counterexample).  Occupied devices are the
distinct pointers held by the vector (`Nodup`). -/
theorem stationTick_phases {σ : Type} (D : ChargeableDevice σ) (cs : ChargingStation)
    (store : ℕ → σ) (prev_time cur_time : ℕ)
    (hnd : cs.devices_charging.Nodup) :
    ∃ store1 charging1 k,
      store1 = ChargingStation.chargeAll D (cur_time - prev_time) cs.devices_charging store
      ∧ charging1 = cs.devices_charging.filter (fun d => !(D.hasFullCharge (store1 d)))
      ∧ k = min (cs.max_number_charging_devices - charging1.length)
            cs.devices_waiting.length
      ∧ (cs.timestepUpdate D store prev_time cur_time).2 = store1
      ∧ (∀ d ∈ cs.devices_charging, store1 d =
          D.addCharge (D.chargeRate (store d) * ((cur_time - prev_time : ℕ) : ℚ)) (store d))
      ∧ (∀ d, d ∉ cs.devices_charging → store1 d = store d)
      ∧ (∀ d ∈ charging1, D.hasFullCharge (store1 d) = false)
      ∧ (cs.timestepUpdate D store prev_time cur_time).1.devices_charging
          = charging1 ++ (cs.devices_waiting.drop (cs.devices_waiting.length - k)).reverse
      ∧ (cs.timestepUpdate D store prev_time cur_time).1.devices_waiting
          = cs.devices_waiting.take (cs.devices_waiting.length - k)
      ∧ (cs.timestepUpdate D store prev_time cur_time).1.max_number_charging_devices
          = cs.max_number_charging_devices := by
  refine ⟨_, _, _, rfl, rfl, rfl, rfl, ?_, ?_, ?_, ?_, ?_, rfl⟩
  · intro d hd
    exact ChargingStation.chargeAll_mem D (cur_time - prev_time) cs.devices_charging
      store d hnd hd
  · intro d hd
    exact ChargingStation.chargeAll_not_mem D (cur_time - prev_time) cs.devices_charging
      store d hd
  · intro d hd
    have := List.of_mem_filter hd
    simpa using this
  · have hloop := ChargingStation.removeFullLoop_eq_filter
      (p := fun d => D.hasFullCharge
        (ChargingStation.chargeAll D (cur_time - prev_time) cs.devices_charging store d))
      cs.devices_charging.length cs.devices_charging (List.countP_le_length _)
    show (ChargingStation.admitFromWaiting cs.max_number_charging_devices
        cs.devices_waiting.length cs.devices_waiting
        (ChargingStation.removeFullLoop _ cs.devices_charging.length
          cs.devices_charging)).2 = _
    rw [hloop, ChargingStation.admitFromWaiting_eq]
    have hmin : min (min cs.devices_waiting.length (cs.max_number_charging_devices -
          (cs.devices_charging.filter (fun d => !(D.hasFullCharge
            (ChargingStation.chargeAll D (cur_time - prev_time) cs.devices_charging
              store d)))).length)) cs.devices_waiting.length
        = min (cs.max_number_charging_devices -
            (cs.devices_charging.filter (fun d => !(D.hasFullCharge
              (ChargingStation.chargeAll D (cur_time - prev_time) cs.devices_charging
                store d)))).length) cs.devices_waiting.length := by
      omega
    rw [hmin]
  · have hloop := ChargingStation.removeFullLoop_eq_filter
      (p := fun d => D.hasFullCharge
        (ChargingStation.chargeAll D (cur_time - prev_time) cs.devices_charging store d))
      cs.devices_charging.length cs.devices_charging (List.countP_le_length _)
    show (ChargingStation.admitFromWaiting cs.max_number_charging_devices
        cs.devices_waiting.length cs.devices_waiting
        (ChargingStation.removeFullLoop _ cs.devices_charging.length
          cs.devices_charging)).1 = _
    rw [hloop, ChargingStation.admitFromWaiting_eq]
    have hmin : min (min cs.devices_waiting.length (cs.max_number_charging_devices -
          (cs.devices_charging.filter (fun d => !(D.hasFullCharge
            (ChargingStation.chargeAll D (cur_time - prev_time) cs.devices_charging
              store d)))).length)) cs.devices_waiting.length
        = min (cs.max_number_charging_devices -
            (cs.devices_charging.filter (fun d => !(D.hasFullCharge
              (ChargingStation.chargeAll D (cur_time - prev_time) cs.devices_charging
                store d)))).length) cs.devices_waiting.length := by
      omega
    rw [hmin]

/-- Witness for `stationTick_phases` at a concrete mock-device station:
capacity 2, occupied [0, 1], waiting [3, 2]. -/
theorem stationTick_phases_witness :
    (ChargingStation.timestepUpdate MockDevice ⟨2, [3, 2], [0, 1]⟩
        (fun n => if n = 0 then 2 else 0) 0 1).1.max_number_charging_devices = 2 := by
  obtain ⟨s1, c1, k, -, -, -, -, -, -, -, -, -, hmax⟩ :=
    stationTick_phases MockDevice ⟨2, [3, 2], [0, 1]⟩
      (fun n => if n = 0 then 2 else 0) 0 1 (by decide)
  exact hmax

/-- `addDevice` keeps the occupied vector within the bay capacity and
never changes the capacity itself. -/
theorem addDevice_length_le (cs : ChargingStation) (d : ℕ)
    (h : cs.devices_charging.length ≤ cs.max_number_charging_devices) :
    (cs.addDevice d).devices_charging.length ≤ (cs.addDevice d).max_number_charging_devices
    ∧ (cs.addDevice d).max_number_charging_devices = cs.max_number_charging_devices := by
  unfold ChargingStation.addDevice
  split_ifs with hlt
  · refine ⟨?_, rfl⟩
    simp only [List.length_append, List.length_cons, List.length_nil]
    omega
  · exact ⟨h, rfl⟩

/-- `timestepUpdate` keeps the occupied vector within the bay capacity:
phase (b) only removes occupants and phase (c) admits only while a bay
is free. -/
theorem timestepUpdate_length_le {σ : Type} (D : ChargeableDevice σ)
    (cs : ChargingStation) (store : ℕ → σ) (p c : ℕ)
    (h : cs.devices_charging.length ≤ cs.max_number_charging_devices) :
    (cs.timestepUpdate D store p c).1.devices_charging.length ≤
      cs.max_number_charging_devices
    ∧ (cs.timestepUpdate D store p c).1.max_number_charging_devices
      = cs.max_number_charging_devices := by
  refine ⟨?_, rfl⟩
  show (ChargingStation.admitFromWaiting cs.max_number_charging_devices
      cs.devices_waiting.length cs.devices_waiting
      (ChargingStation.removeFullLoop _ cs.devices_charging.length
        cs.devices_charging)).2.length ≤ _
  rw [ChargingStation.removeFullLoop_eq_filter cs.devices_charging.length
    cs.devices_charging (List.countP_le_length _), ChargingStation.admitFromWaiting_eq]
  have hfil : (cs.devices_charging.filter (fun d => !(D.hasFullCharge
      (ChargingStation.chargeAll D (c - p) cs.devices_charging store d)))).length ≤
      cs.devices_charging.length := List.length_filter_le _ _
  simp only [List.length_append, List.length_reverse, List.length_drop]
  omega

theorem runStationFrom_length_le {σ : Type} (D : ChargeableDevice σ) :
    ∀ (ops : List StationOp) (s : ChargingStation × (ℕ → σ)),
      s.1.devices_charging.length ≤ s.1.max_number_charging_devices →
      (runStationFrom D s ops).1.devices_charging.length ≤
        s.1.max_number_charging_devices
      ∧ (runStationFrom D s ops).1.max_number_charging_devices
        = s.1.max_number_charging_devices := by
  intro ops
  induction ops with
  | nil => intro s h; exact ⟨h, rfl⟩
  | cons op ops ih =>
    intro s h
    rw [runStationFrom]
    cases op with
    | addDevice d =>
      have hstep := addDevice_length_le s.1 d h
      obtain ⟨h1, h2⟩ := ih (applyStationOp D s (StationOp.addDevice d)) hstep.1
      exact ⟨le_trans h1 hstep.2.le, h2.trans hstep.2⟩
    | timestep p c =>
      have hstep := timestepUpdate_length_le D s.1 s.2 p c h
      obtain ⟨h1, h2⟩ := ih (applyStationOp D s (StationOp.timestep p c))
        (le_of_le_of_eq hstep.1 hstep.2.symm)
      exact ⟨le_trans h1 hstep.2.le, h2.trans hstep.2⟩

/-- C6: for every device model, every initial store, and every
interleaving of `addDevice` and `timestepUpdate` calls starting from the
freshly constructed station, `occupied.size() ≤ bayCapacity` holds after
every prefix (hence before and after every tick); with `bayCapacity = 0`
the occupied vector stays empty forever — every admitted device waits —
and every operation is total (the model functions are total, as the C++
operations throw nothing). -/
theorem station_occupancy_invariant {σ : Type} (D : ChargeableDevice σ) (cap : ℕ)
    (store : ℕ → σ) (ops : List StationOp) :
    (runStation D cap store ops).1.devices_charging.length ≤ cap
    ∧ (cap = 0 → (runStation D cap store ops).1.devices_charging = []) := by
  have h := runStationFrom_length_le D ops (mkChargingStation cap, store)
    (by simp [mkChargingStation])
  have h1 : (runStation D cap store ops).1.devices_charging.length ≤ cap := h.1
  exact ⟨h1, fun hcap => List.length_eq_zero.mp (by omega)⟩

/-- C10: `addDevice` never touches the device itself: the whole device
store — in particular the admitted device's state, and anything the
`ChargeableDevice` interface can observe about it — is unchanged, even
when the device goes directly into a free bay; only the station's two
containers change, as described by `addDevice` (charge is delivered only
by the station's next `timestepUpdate`, through `addCharge`). -/
theorem addDevice_frame {σ : Type} (D : ChargeableDevice σ) (cs : ChargingStation)
    (store : ℕ → σ) (device : ℕ) :
    (applyStationOp D (cs, store) (StationOp.addDevice device)).2 = store
    ∧ (applyStationOp D (cs, store) (StationOp.addDevice device)).2 device = store device
    ∧ D.hasFullCharge ((applyStationOp D (cs, store) (StationOp.addDevice device)).2 device)
        = D.hasFullCharge (store device)
    ∧ (applyStationOp D (cs, store) (StationOp.addDevice device)).1 = cs.addDevice device
    ∧ (cs.addDevice device).max_number_charging_devices
        = cs.max_number_charging_devices := by
  refine ⟨rfl, rfl, rfl, rfl, ?_⟩
  unfold ChargingStation.addDevice
  split_ifs <;> rfl

/-- C8: configuration construction fails exactly when some constraint is
violated — blank name, cruise speed ≤ 0, battery capacity ≤ 0,
time-to-charge ≤ 0, energy use ≤ 0, passenger count 0 (a `size_t` can
only violate positivity by being zero), or fault probability outside
[0, 1] — and a successfully constructed object holds exactly the given
field values and satisfies every constraint, so no invalid configuration
object is obtainable (src/evtol.h lines 42-62). -/
theorem mkConfiguration_spec (company_name : String)
    (cruise_speed battery_capacity time_to_charge energy_use_at_cruise : ℚ)
    (passenger_count : ℕ) (prob_fault_per_hour : ℚ) :
    ((∃ c, mkConfiguration company_name cruise_speed battery_capacity time_to_charge
        energy_use_at_cruise passenger_count prob_fault_per_hour = Except.ok c) ↔
      (company_name ≠ "" ∧ 0 < cruise_speed ∧ 0 < battery_capacity ∧ 0 < time_to_charge ∧
        0 < energy_use_at_cruise ∧ 0 < passenger_count ∧
        0 ≤ prob_fault_per_hour ∧ prob_fault_per_hour ≤ 1))
    ∧ (∀ c, mkConfiguration company_name cruise_speed battery_capacity time_to_charge
          energy_use_at_cruise passenger_count prob_fault_per_hour = Except.ok c →
        c = ⟨company_name, cruise_speed, battery_capacity, time_to_charge,
          energy_use_at_cruise, passenger_count, prob_fault_per_hour⟩ ∧ ConfigValid c) := by
  unfold mkConfiguration
  split_ifs with h1 h2 h3 h4 h5 h6 h7
  · exact ⟨⟨fun ⟨c, hc⟩ => hc.elim, fun hval => absurd h1 hval.1⟩,
      fun c hc => hc.elim⟩
  · exact ⟨⟨fun ⟨c, hc⟩ => hc.elim,
      fun hval => absurd hval.2.1 (not_lt.mpr h2)⟩, fun c hc => hc.elim⟩
  · exact ⟨⟨fun ⟨c, hc⟩ => hc.elim,
      fun hval => absurd hval.2.2.1 (not_lt.mpr h3)⟩, fun c hc => hc.elim⟩
  · exact ⟨⟨fun ⟨c, hc⟩ => hc.elim,
      fun hval => absurd hval.2.2.2.1 (not_lt.mpr h4)⟩, fun c hc => hc.elim⟩
  · exact ⟨⟨fun ⟨c, hc⟩ => hc.elim,
      fun hval => absurd hval.2.2.2.2.1 (not_lt.mpr h5)⟩, fun c hc => hc.elim⟩
  · refine ⟨⟨fun ⟨c, hc⟩ => hc.elim, fun hval => ?_⟩,
      fun c hc => hc.elim⟩
    have := hval.2.2.2.2.2.1
    omega
  · refine ⟨⟨fun ⟨c, hc⟩ => hc.elim, fun hval => ?_⟩,
      fun c hc => hc.elim⟩
    obtain ⟨-, -, -, -, -, -, hp0, hp1⟩ := hval
    rcases h7 with h7 | h7
    · exact absurd hp0 (not_le.mpr h7)
    · exact absurd hp1 (not_le.mpr h7)
  · have hval : company_name ≠ "" ∧ 0 < cruise_speed ∧ 0 < battery_capacity ∧
        0 < time_to_charge ∧ 0 < energy_use_at_cruise ∧ 0 < passenger_count ∧
        0 ≤ prob_fault_per_hour ∧ prob_fault_per_hour ≤ 1 := by
      push_neg at h7
      refine ⟨h1, not_le.mp h2, not_le.mp h3, not_le.mp h4, not_le.mp h5, ?_, h7.1, h7.2⟩
      omega
    refine ⟨⟨fun _ => hval, fun _ => ⟨_, rfl⟩⟩, fun c hc => ?_⟩
    have hc' : (⟨company_name, cruise_speed, battery_capacity, time_to_charge,
        energy_use_at_cruise, passenger_count, prob_fault_per_hour⟩ : eVTOLConfiguration)
        = c := by
      injection hc
    refine ⟨hc'.symm, ?_⟩
    rw [← hc']
    exact hval

/-- C9 (counterexample): `create_eVTOL` copies the selected prototype's
state verbatim (src/evtol.h lines 128-141), so a factory whose prototype
has been started (`begin()` put it in `FLYING`) — `addPrototype` accepts
any vehicle — yields a created vehicle in the `FLYING` state, not the
claimed `UNKNOWN`, even though the prototype set is non-empty and
creation succeeds. -/
theorem create_eVTOL_state_counterexample :
    (create_eVTOL [(mk_eVTOL ⟨"one", 1, 1, 1, 1, 1, 1⟩).begin] 0).map eVTOL.state
      = some eVTOLState.FLYING
    ∧ eVTOLState.FLYING ≠ eVTOLState.UNKNOWN
    ∧ [(mk_eVTOL ⟨"one", 1, 1, 1, 1, 1, 1⟩).begin] ≠ [] := by
  refine ⟨rfl, by decide, by simp⟩

/-- C9 (amended): for every drawn index within range — the uniform draw
over `[0, size-1]` — `create_eVTOL` succeeds and returns a fresh copy of
the selected prototype; the copy duplicates every modelled field, so its
state equals the prototype's state and is `UNKNOWN` exactly when the
prototype's is (as for every freshly constructed prototype, the only
kind the repository ever registers).  On an empty prototype set the code
reports no configuration error: it feeds `size()-1` (wrapped around) to
the distribution and indexes out of bounds — undefined behaviour,
modelled as `none`. -/
theorem create_eVTOL_spec (prototypes : List eVTOL) (index : ℕ)
    (hidx : index < prototypes.length) :
    (∀ j, create_eVTOL [] j = none)
    ∧ create_eVTOL prototypes index = some (copy_eVTOL (prototypes.get ⟨index, hidx⟩))
    ∧ copy_eVTOL (prototypes.get ⟨index, hidx⟩) = prototypes.get ⟨index, hidx⟩
    ∧ ((create_eVTOL prototypes index).map eVTOL.state = some eVTOLState.UNKNOWN ↔
        (prototypes.get ⟨index, hidx⟩).state = eVTOLState.UNKNOWN)
    ∧ (∀ config, prototypes.get ⟨index, hidx⟩ = mk_eVTOL config →
        (create_eVTOL prototypes index).map eVTOL.state = some eVTOLState.UNKNOWN) := by
  have hsome : create_eVTOL prototypes index
      = some (copy_eVTOL (prototypes.get ⟨index, hidx⟩)) := by
    unfold create_eVTOL
    rw [List.get?_eq_get hidx]
    rfl
  have hcopy : copy_eVTOL (prototypes.get ⟨index, hidx⟩) = prototypes.get ⟨index, hidx⟩ := rfl
  refine ⟨fun j => rfl, hsome, hcopy, ?_, ?_⟩
  · rw [hsome, hcopy]
    simp
  · intro config hconfig
    rw [hsome, hcopy, hconfig]
    rfl

/-- Witness for `create_eVTOL_spec` at a factory holding one freshly
constructed prototype: the created vehicle is in the `UNKNOWN` state. -/
theorem create_eVTOL_spec_witness :
    (create_eVTOL [mk_eVTOL ⟨"one", 1, 1, 1, 1, 1, 1⟩] 0).map eVTOL.state
      = some eVTOLState.UNKNOWN := by
  have h := create_eVTOL_spec [mk_eVTOL ⟨"one", 1, 1, 1, 1, 1, 1⟩] 0 (by simp)
  exact h.2.2.2.2 ⟨"one", 1, 1, 1, 1, 1, 1⟩ rfl

/-- The i-th callback fired by the timer loop carries the pair
`((cnt + i) * T, (cnt + i + 1) * T)`, for any clock trace. -/
theorem timerLoop_get? (T I stop : ℕ) :
    ∀ (clock : List ℕ) (nu cnt i : ℕ),
      i < (timerLoop T I stop clock nu cnt).length →
      (timerLoop T I stop clock nu cnt).get? i
        = some ((cnt + i) * T, (cnt + i + 1) * T) := by
  intro clock
  induction clock with
  | nil => intro nu cnt i h; rw [timerLoop] at h; simp at h
  | cons c rest ih =>
    intro nu cnt i h
    by_cases hc : c < stop
    · by_cases hnu : nu ≤ c
      · rw [timerLoop, if_pos hc, if_pos hnu] at h ⊢
        cases i with
        | zero => simp
        | succ i =>
          rw [List.get?_cons_succ]
          have hrec := ih (nu + I) (cnt + 1) i
            (by rw [List.length_cons] at h; omega)
          rw [hrec]
          have harith : cnt + 1 + i = cnt + (i + 1) := by omega
          rw [harith]
      · rw [timerLoop, if_pos hc, if_neg hnu] at h ⊢
        exact ih nu cnt i h
    · rw [timerLoop, if_neg hc] at h
      simp at h

/-- Whatever the clock does, the timer loop can fire at most
`⌈total / I⌉` callbacks when the update interval `I` is positive: the
n-th fire needs `next_update = base + n·I` to lie strictly before
`stop ≤ base + total`. -/
theorem timerLoop_count (T I stop base total : ℕ) (hI : 0 < I)
    (hstop : stop ≤ base + total) :
    ∀ (clock : List ℕ) (cnt nu : ℕ), base + cnt * I ≤ nu →
      cnt + (timerLoop T I stop clock nu cnt).length ≤ (total + I - 1) / I
        ∨ (timerLoop T I stop clock nu cnt).length = 0 := by
  intro clock
  induction clock with
  | nil => intro cnt nu _; right; rfl
  | cons c rest ih =>
    intro cnt nu hnu
    by_cases hc : c < stop
    · by_cases hle : nu ≤ c
      · left
        rw [timerLoop, if_pos hc, if_pos hle, List.length_cons]
        have hmul : (cnt + 1) * I = cnt * I + I := by ring
        have hceil : cnt + 1 ≤ (total + I - 1) / I := by
          rw [Nat.le_div_iff_mul_le hI]
          omega
        rcases ih (cnt + 1) (nu + I) (by omega) with h | h
        · omega
        · rw [h]
          omega
      · rw [timerLoop, if_pos hc, if_neg hle]
        exact ih cnt nu hnu
    · right
      rw [timerLoop, if_neg hc]
      rfl

/-- C7 (amended): for every clock trace, the i-th callback (counting
from 0) is invoked with the pair `(i × T, (i+1) × T)`, so
`currentTime − previousTime` always equals the tick size `T`; and when
the computed update interval `⌊1000·T/r⌋` microseconds is positive, the
number of callbacks never exceeds
`⌈(D·60·10⁶/r) / ⌊1000·T/r⌋⌉`.  The exact count of the claim
(`⌈D·60000/T⌉ or ⌊D·60000/T⌋`) is not guaranteed: wall-clock pacing can
fire fewer, and for compression ratios that do not divide `1000·T` the
truncated microsecond interval fires more even under a dense clock (see
the counterexample). -/
theorem timerStart_spec (T D r : ℕ) (clock : List ℕ)
    (hI : 0 < 1000 * T / r) :
    (∀ i, i < (timerStart T D r clock).length →
        (timerStart T D r clock).get? i = some (i * T, (i + 1) * T))
    ∧ (timerStart T D r clock).length ≤
        (D * 60 * 1000000 / r + (1000 * T / r) - 1) / (1000 * T / r) := by
  cases clock with
  | nil =>
    exact ⟨fun i hi => absurd hi (by rw [timerStart]; simp),
      by rw [timerStart]; simp⟩
  | cons start rest =>
    constructor
    · intro i hi
      have h := timerLoop_get? T (1000 * T / r) (start + D * 60 * 1000000 / r)
        (start :: rest) start 0 i hi
      simpa using h
    · have h := timerLoop_count T (1000 * T / r) (start + D * 60 * 1000000 / r)
        start (D * 60 * 1000000 / r) hI (le_refl _) (start :: rest) 0 start (by omega)
      rcases h with h | h
      · simpa using h
      · show (timerLoop T (1000 * T / r) (start + D * 60 * 1000000 / r)
          (start :: rest) start 0).length ≤ _
        rw [h]
        exact Nat.zero_le _

/-- Witness for `timerStart_spec` with tick 1000 ms, one minute,
real-time pacing, and a two-reading clock. -/
theorem timerStart_spec_witness :
    (timerStart 1000 1 1 [0, 500000]).length ≤
      (1 * 60 * 1000000 / 1 + (1000 * 1000 / 1) - 1) / (1000 * 1000 / 1) :=
  (timerStart_spec 1000 1 1 [0, 500000] (by norm_num)).2

set_option maxRecDepth 40000 in
/-- C7 (counterexample): the exact callback count fails on the code even
under an ideal, dense clock.  With tick size T = 1000 ms, duration D = 1
minute and compression ratio 60000 (all constructor-valid), the claim
requires ⌈D·60000/T⌉ = ⌊D·60000/T⌋ = 60 callbacks, but `start` computes
`update_interval = 1000·1000/60000 = 16 µs` (truncated from 16.6) and
`stop_time − start = 60·10⁶/60000 = 1000 µs`, so a 1 µs-resolution clock
trace covering the whole run — its final reading 1000 equals the stop
time, making the loop exit because simulated time is up — fires
⌈1000/16⌉ = 63 callbacks. -/
theorem timer_count_counterexample :
    (timerStart 1000 1 60000 (List.range 1001)).length = 63
    ∧ 1 * 60000 / 1000 = 60
    ∧ (1 * 60000 + 1000 - 1) / 1000 = 60
    ∧ (63 : ℕ) ≠ 60
    ∧ 0 + 1 * 60 * 1000000 / 60000 = 1000
    ∧ (List.range 1001).getLast? = some 1000 := by
  refine ⟨by decide, by norm_num, by norm_num, by norm_num, by norm_num, by decide⟩

end EVTOLSim
